import Mathlib

/-!
# Verification of the openspace-generation pipeline

Shallow embedding of `src/main.py` and `src/utils.py` of the
OpenspaceAutomation repository.

The program computes a regulatory "public open space" for a building lot:
an eligibility / required-area evaluator (`OpenspaceRequirement`), then a
four-stage pipeline over planar polygons (candidate generation by
inward/outward offsetting, road-adjacency and minimum-area filtering,
descending stable sort by area, and greedy area fitting with a final
similarity-scale truncation).

The geometry kernel (Rhino / Grasshopper / Clipper) is an external
collaborator; it is embedded as an abstract record `GeomKernel` of pure
operations over an abstract polygon/curve type `Poly` and point type `Pt`.
Areas, lengths and curve parameters are modelled as exact rationals.
The repository's own functions are translated from the Python source on
top of this interface.  Python statements that can raise `IndexError`
(`contour[0]` in `offset_region_outward`, `get_overlap_crv(...)[0]` in
`reduce_region`) are modelled with `Option`: `none` is the raised,
pipeline-aborting exception.
-/

/-- Rhino's `RegionContainment` enumeration, the result type of
`geo.Curve.PlanarClosedCurveRelationship`. -/
inductive RegionContainment : Type
  | Disjoint
  | MutualIntersection
  | AInsideB
  | BInsideA
deriving DecidableEq, Repr

/-- The geometry-kernel interface consumed by the pipeline
(Rhino / ghcomp / Clipper primitives).  Each field models one external
primitive appearing in the source:

* `area p` — `geo.AreaMassProperties.Compute(p).Area`;
* `planarCurveCollision a b` — `geo.Curve.PlanarCurveCollision(a, b, WorldXY, TOL)`;
* `explodeVertices a` — `ghcomp.Explode(a, True).vertices`;
* `curveXCurvePoints a b` — `ghcomp.CurveXCurve(a, b).points`;
* `curveClosestParam pt a` — `ghcomp.CurveClosestPoint(pt, a).parameter`;
* `shatter a params` — `ghcomp.Shatter(a, params)`;
* `joinCurves segs` — `geo.Curve.JoinCurves(segs)`;
* `getLength c` — `c.GetLength()`;
* `pointAt c t` — `c.PointAt(t)`;
* `relationship a b` — `geo.Curve.PlanarClosedCurveRelationship(a, b, WorldXY, tol)`;
* `scaleSqrt p c q` — `ghcomp.Scale(p, c, q ** 0.5).geometry`, i.e. the uniform
  similarity scaling of `p` about `c` by the square root of the ratio `q`
  (the source always computes the linear factor as `(target_area / area) ** 0.5`,
  so only this composite enters the pipeline; exposing the composite keeps the
  interface rational-valued);
* `polylineOffsetHoles rs d` — `Offset().polyline_offset(rs, d, BIGNUM).holes`;
* `polylineOffsetContour rs d` — `Offset().polyline_offset(rs, d, BIGNUM).contour`
  (the miter argument is the constant `BIGNUM` at every call site and is omitted).

`region.Duplicate()` produces an identical immutable copy and is the identity
in this value semantics. -/
structure GeomKernel (Poly Pt : Type) where
  area : Poly → ℚ
  planarCurveCollision : Poly → Poly → Bool
  explodeVertices : Poly → List Pt
  curveXCurvePoints : Poly → Poly → List Pt
  curveClosestParam : Pt → Poly → ℚ
  shatter : Poly → List ℚ → List Poly
  joinCurves : List Poly → List Poly
  getLength : Poly → ℚ
  pointAt : Poly → ℚ → Pt
  relationship : Poly → Poly → RegionContainment
  scaleSqrt : Poly → Pt → ℚ → Poly
  polylineOffsetHoles : List Poly → ℚ → List Poly
  polylineOffsetContour : List Poly → ℚ → List Poly

/-- `OpenspaceRequirement.MIN_AREA = 90.0` (`src/main.py`). -/
def MIN_AREA : ℚ := 90

/-- `OpenspaceRequirement.MIN_DEPTH = 9.0` (`src/main.py`). -/
def MIN_DEPTH : ℚ := 9

/-- `OpenspaceRequirement.AREA_RATIO = 0.1` (`src/main.py`). -/
def AREA_RATIO : ℚ := 1/10

/-- `OpenspaceRequirement.ROAD_ADJUST_RATIO = 0.25` (`src/main.py`). -/
def ROAD_ADJUST_RATIO : ℚ := 1/4

/-- `class Lot` (`src/main.py`): a closed region curve and a zoning
category.  The derived `self.area` is `K.area lot.region`, see `Lot.area`. -/
structure Lot (Poly : Type) where
  region : Poly
  district_use : String

/-- `self.area = geo.AreaMassProperties.Compute(region).Area` in
`Lot.__init__`. -/
def Lot.area {Poly Pt : Type} (K : GeomKernel Poly Pt) (lot : Lot Poly) : ℚ :=
  K.area lot.region

/-- `class Road` (`src/main.py`). -/
structure Road (Poly : Type) where
  curve : Poly

/-- `class Building` (`src/main.py`): footprint region curves, a floor
count and a use category. -/
structure Building (Poly : Type) where
  regions : List Poly
  floor_count : ℕ
  use : String

/-- `self.floor_area = sum(Compute(region).Area for region in regions)` in
`Building.__init__`. -/
def Building.floor_area {Poly Pt : Type} (K : GeomKernel Poly Pt)
    (b : Building Poly) : ℚ :=
  (b.regions.map K.area).sum

/-- `self.total_area = self.floor_area * floor_count` in
`Building.__init__`. -/
def Building.total_area {Poly Pt : Type} (K : GeomKernel Poly Pt)
    (b : Building Poly) : ℚ :=
  Building.floor_area K b * b.floor_count

/-- The zoning categories of eligibility condition 1 in
`OpenspaceRequirement._get_target_information`. -/
def eligible_district_uses : List String :=
  ["일반주거지역", "준주거지역", "상업지역", "준공업지역"]

/-- The building-use categories of eligibility condition 2 in
`OpenspaceRequirement._get_target_information`. -/
def eligible_building_uses : List String :=
  ["문화시설", "집회시설", "종교시설", "판매시설", "운수시설", "업무시설", "숙박시설"]

/-- `OpenspaceRequirement.__init__` together with
`_get_target_information` (`src/main.py` lines 51-82): `self.area` starts
at `0`; each failed condition returns early leaving it `0`; if all three
conditions hold it becomes `max(lot.area * AREA_RATIO, MIN_AREA)`. -/
def openspaceRequirementArea {Poly Pt : Type} (K : GeomKernel Poly Pt)
    (lot : Lot Poly) (building : Building Poly) : ℚ :=
  if lot.district_use ∉ eligible_district_uses then 0
  else if building.use ∉ eligible_building_uses then 0
  else if Building.total_area K building < 5000 then 0
  else max (Lot.area K lot * AREA_RATIO) MIN_AREA

/-- `utils.get_overlap_crv` (`src/utils.py` lines 21-54): the segments of
`crv_a` overlapping `crv_b`.  The collision test, splitting points,
shatter and join are kernel primitives; the control flow (the three early
returns of the empty list) is the source's. -/
def get_overlap_crv {Poly Pt : Type} (K : GeomKernel Poly Pt)
    (crv_a crv_b : Poly) : List Poly :=
  if !(K.planarCurveCollision crv_a crv_b) then []
  else
    let pts_to_split := K.explodeVertices crv_a ++ K.curveXCurvePoints crv_a crv_b
    if pts_to_split.isEmpty then []
    else
      let parameters := pts_to_split.map (fun pt => K.curveClosestParam pt crv_a)
      let segments := K.shatter crv_a parameters
      let overlaped_segments :=
        segments.filter (fun seg => K.planarCurveCollision seg crv_b)
      if overlaped_segments.isEmpty then []
      else K.joinCurves overlaped_segments

/-- `utils.get_overlap_length` (`src/utils.py` lines 57-73): `0.0` when
the overlap is empty, otherwise the summed lengths of the overlap
curves. -/
def get_overlap_length {Poly Pt : Type} (K : GeomKernel Poly Pt)
    (crv_a crv_b : Poly) : ℚ :=
  let overlap_crvs := get_overlap_crv K crv_a crv_b
  if overlap_crvs.isEmpty then 0
  else (overlap_crvs.map K.getLength).sum

/-- `utils.has_region_intersection` (`src/utils.py` lines 83-101): `False`
exactly when `PlanarClosedCurveRelationship` classifies the two regions as
`Disjoint`. -/
def has_region_intersection {Poly Pt : Type} (K : GeomKernel Poly Pt)
    (region other_region : Poly) : Bool :=
  match K.relationship region other_region with
  | RegionContainment.Disjoint => false
  | _ => true

/-- `utils.offset_regions_inward` (`src/utils.py` lines 104-119): identity
when the distance is falsy (`0`), otherwise the `holes` of one collective
polyline offset of all the regions. -/
def offset_regions_inward {Poly Pt : Type} (K : GeomKernel Poly Pt)
    (regions : List Poly) (dist : ℚ) : List Poly :=
  if dist = 0 then regions else K.polylineOffsetHoles regions dist

/-- `utils.offset_region_outward` (`src/utils.py` lines 139-156): identity
when the distance is falsy, otherwise `polyline_offset(region).contour[0]`.
The `[0]` indexing raises `IndexError` on an empty contour list, modelled
by `List.head?` returning `none`. -/
def offset_region_outward {Poly Pt : Type} (K : GeomKernel Poly Pt)
    (region : Poly) (dist : ℚ) : Option Poly :=
  if dist = 0 then some region
  else (K.polylineOffsetContour [region] dist).head?

/-- `utils.offset_regions_outward` (`src/utils.py` lines 122-136): the
list comprehension `[offset_region_outward(region, dist) for region in
regions]`.  A raised `IndexError` in any element aborts the whole
comprehension, hence the `Option` result. -/
def offset_regions_outward {Poly Pt : Type} (K : GeomKernel Poly Pt)
    (dist : ℚ) : List Poly → Option (List Poly)
  | [] => some []
  | region :: rest =>
    match offset_region_outward K region dist, offset_regions_outward K dist rest with
    | some p, some ps => some (p :: ps)
    | _, _ => none

/-- The building-intersection filter inside
`OepnspaceGenerator.get_candidate_regions` (`src/main.py` lines 123-131):
keep an inward region only when it has no region intersection with any
building region. -/
def filter_inward_regions {Poly Pt : Type} (K : GeomKernel Poly Pt)
    (building : Building Poly) (inward_regions : List Poly) : List Poly :=
  inward_regions.filter (fun region =>
    !(building.regions.any (fun other_region =>
      has_region_intersection K region other_region)))

/-- `OepnspaceGenerator.get_candidate_regions` (`src/main.py` lines
114-137): inward offset of `[lot.region, parking_region] + building.regions`
by `MIN_DEPTH / 2`, filtering of regions intersecting the building, and
outward offset of the survivors by `MIN_DEPTH / 2`. -/
def get_candidate_regions {Poly Pt : Type} (K : GeomKernel Poly Pt)
    (lot : Lot Poly) (building : Building Poly) (parking_region : Poly) :
    Option (List Poly) :=
  let inward_regions :=
    offset_regions_inward K ([lot.region, parking_region] ++ building.regions)
      (MIN_DEPTH / 2)
  offset_regions_outward K (MIN_DEPTH / 2)
    (filter_inward_regions K building inward_regions)

/-- The local predicate `is_road_adjacent` of
`OepnspaceGenerator.filter_candidate_regions` (`src/main.py` lines
142-157): some road whose overlap length with the candidate exceeds
`ROAD_ADJUST_RATIO` times its overlap length with the lot region. -/
def is_road_adjacent {Poly Pt : Type} (K : GeomKernel Poly Pt)
    (lot : Lot Poly) (roads : List (Road Poly)) (candidate : Poly) : Bool :=
  roads.any (fun road =>
    decide (get_overlap_length K lot.region road.curve * ROAD_ADJUST_RATIO <
      get_overlap_length K candidate road.curve))

/-- `OepnspaceGenerator.filter_candidate_regions` (`src/main.py` lines
139-169): the road-adjacency filter followed by the minimum-area
filter. -/
def filter_candidate_regions {Poly Pt : Type} (K : GeomKernel Poly Pt)
    (lot : Lot Poly) (roads : List (Road Poly)) (candidates : List Poly) :
    List Poly :=
  (candidates.filter (fun x => is_road_adjacent K lot roads x)).filter
    (fun x => decide (MIN_AREA ≤ K.area x))

/-- `OepnspaceGenerator.sort_candidate_regions` (`src/main.py` lines
171-178): Python's `sorted(candidates, key=area, reverse=True)`, a stable
sort by area descending.  `List.insertionSort` with the relation
`area b ≤ area a` is such a stable descending sort. -/
def sort_candidate_regions {Poly Pt : Type} (K : GeomKernel Poly Pt)
    (candidates : List Poly) : List Poly :=
  List.insertionSort (fun a b => K.area b ≤ K.area a) candidates

/-- The local function `reduce_region` of
`OepnspaceGenerator.adjust_candidate_regions` (`src/main.py` lines
182-192): return the region unchanged when its area is already at most the
target; otherwise scale it about the midpoint (`PointAt(0.5)`) of the
first overlap curve with the lot region by the factor
`(target_area / area) ** 0.5`.  The `[0]` indexing of the possibly-empty
overlap list raises `IndexError`, modelled by `none`.
`region.Duplicate()` is the identity here. -/
def reduce_region {Poly Pt : Type} (K : GeomKernel Poly Pt) (lot : Lot Poly)
    (region : Poly) (target_area : ℚ) : Option Poly :=
  if K.area region ≤ target_area then some region
  else
    match get_overlap_crv K region lot.region with
    | [] => none
    | seg :: _ =>
      some (K.scaleSqrt region (K.pointAt seg (1/2)) (target_area / K.area region))

/-- The accumulation loop of `OepnspaceGenerator.adjust_candidate_regions`
(`src/main.py` lines 194-209), with the running list and total explicit:
when the next candidate would overshoot, it is reduced to the remaining
target; the (possibly reduced) candidate is appended and its recomputed
area added; the loop breaks as soon as the total reaches the
requirement. -/
def adjust_loop {Poly Pt : Type} (K : GeomKernel Poly Pt) (lot : Lot Poly)
    (req_area : ℚ) : List Poly → List Poly → ℚ → Option (List Poly)
  | [], adjusted_candidates, _ => some adjusted_candidates
  | candidate :: rest, adjusted_candidates, total_area =>
    if req_area < total_area + K.area candidate then
      match reduce_region K lot candidate (req_area - total_area) with
      | none => none
      | some reduced =>
        if req_area ≤ total_area + K.area reduced then
          some (adjusted_candidates ++ [reduced])
        else
          adjust_loop K lot req_area rest (adjusted_candidates ++ [reduced])
            (total_area + K.area reduced)
    else
      if req_area ≤ total_area + K.area candidate then
        some (adjusted_candidates ++ [candidate])
      else
        adjust_loop K lot req_area rest (adjusted_candidates ++ [candidate])
          (total_area + K.area candidate)

/-- `OepnspaceGenerator.adjust_candidate_regions` (`src/main.py` lines
180-209): the loop started with an empty accepted list and total `0`. -/
def adjust_candidate_regions {Poly Pt : Type} (K : GeomKernel Poly Pt)
    (lot : Lot Poly) (req_area : ℚ) (candidates : List Poly) :
    Option (List Poly) :=
  adjust_loop K lot req_area candidates [] 0

/-- `OepnspaceGenerator.get_openspace` (`src/main.py` lines 100-112):
generation, filtering, sorting and adjustment in sequence.  `req_area` is
`self.requirement.area`. -/
def get_openspace {Poly Pt : Type} (K : GeomKernel Poly Pt) (lot : Lot Poly)
    (roads : List (Road Poly)) (building : Building Poly)
    (parking_region : Poly) (req_area : ℚ) : Option (List Poly) :=
  (get_candidate_regions K lot building parking_region).bind
    (fun candidates =>
      adjust_candidate_regions K lot req_area
        (sort_candidate_regions K
          (filter_candidate_regions K lot roads candidates)))

/-- Total area of a list of regions, `sum(area(r) for r in regions)`
(`src/main.py` lines 222-224). -/
def areaSum {Poly Pt : Type} (K : GeomKernel Poly Pt) (regions : List Poly) : ℚ :=
  (regions.map K.area).sum

/-!
## A concrete kernel instance

A small executable geometry kernel used to evaluate the pipeline on
concrete inputs.  A `CPoly` is an abstract curve/region carrying an
identifier and one numeric measure (its area for regions, its length for
overlap segments); the kernel primitives are driven by identifier
tables. -/

/-- A concrete abstract polygon/curve: an identifier and a numeric
measure. -/
structure CPoly where
  pid : ℕ
  parea : ℚ
deriving DecidableEq, Repr

/-- Lot region, area 10000. -/
def lotR : CPoly := ⟨1, 10000⟩

/-- Parking region. -/
def parkR : CPoly := ⟨2, 0⟩

/-- Building footprint region, area 2000. -/
def bldR : CPoly := ⟨3, 2000⟩

/-- Road curve. -/
def roadR : CPoly := ⟨4, 0⟩

/-- Inward-offset hole produced by the collective inward offset. -/
def hole1 : CPoly := ⟨5, 0⟩

/-- Candidate region (outward offset of `hole1`), area 100. -/
def cand : CPoly := ⟨6, 100⟩

/-- Overlap segment of `cand` with the road, length 10. -/
def segCR : CPoly := ⟨7, 10⟩

/-- Overlap segment of the lot region with the road, length 20. -/
def segLR : CPoly := ⟨8, 20⟩

/-- Overlap segment of `cand` with the lot region, length 5. -/
def segCL : CPoly := ⟨9, 5⟩

/-- A candidate overlapping the road but sharing no overlap curve with
the lot region, area 100. -/
def orphan : CPoly := ⟨10, 100⟩

/-- An inward region whose outward offset yields an empty contour list. -/
def badRegion : CPoly := ⟨11, 0⟩

/-- Overlap segment of `orphan` with the road, length 10. -/
def segOR : CPoly := ⟨12, 10⟩

/-- The concrete kernel. -/
def cK : GeomKernel CPoly Unit where
  area := fun p => p.parea
  planarCurveCollision := fun p q =>
    decide ((p.pid, q.pid) ∈
      [(6, 1), (6, 4), (1, 4), (10, 4), (7, 4), (8, 4), (9, 1), (12, 4)])
  explodeVertices := fun _ => [()]
  curveXCurvePoints := fun _ _ => []
  curveClosestParam := fun _ _ => 0
  shatter := fun p _ =>
    if p.pid = 6 then [segCR, segCL]
    else if p.pid = 1 then [segLR]
    else if p.pid = 10 then [segOR]
    else []
  joinCurves := fun segs => segs
  getLength := fun p => p.parea
  pointAt := fun _ _ => ()
  relationship := fun p q =>
    if (p.pid, q.pid) = (13, 3) then RegionContainment.MutualIntersection
    else RegionContainment.Disjoint
  scaleSqrt := fun p _ q => ⟨p.pid, p.parea * q⟩
  polylineOffsetHoles := fun rs _ => if rs.map CPoly.pid = [1, 2, 3] then [hole1] else []
  polylineOffsetContour := fun rs _ => if rs.map CPoly.pid = [5] then [cand] else []

/-- The concrete lot: the lot region in an eligible zoning category. -/
def cLot : Lot CPoly := ⟨lotR, "일반주거지역"⟩

/-- The concrete road. -/
def cRoad : Road CPoly := ⟨roadR⟩

/-- A building of floor area 2000 with 2 floors: total area 4000, below
the 5000 threshold. -/
def cBuildingSmall : Building CPoly := ⟨[bldR], 2, "업무시설"⟩

/-- A building of floor area 2000 with 3 floors: total area 6000, meeting
the 5000 threshold. -/
def cBuildingBig : Building CPoly := ⟨[bldR], 3, "업무시설"⟩

/-!
## Helper lemmas
-/

theorem areaSum_nil {Poly Pt : Type} (K : GeomKernel Poly Pt) : areaSum K [] = 0 := rfl

theorem areaSum_cons {Poly Pt : Type} (K : GeomKernel Poly Pt) (x : Poly) (l : List Poly) :
    areaSum K (x :: l) = K.area x + areaSum K l := by
  simp [areaSum]

theorem areaSum_append {Poly Pt : Type} (K : GeomKernel Poly Pt) (l₁ l₂ : List Poly) :
    areaSum K (l₁ ++ l₂) = areaSum K l₁ + areaSum K l₂ := by
  simp [areaSum]

theorem areaSum_nonneg {Poly Pt : Type} (K : GeomKernel Poly Pt) (l : List Poly)
    (h : ∀ c ∈ l, 0 ≤ K.area c) : 0 ≤ areaSum K l := by
  induction l with
  | nil => simp [areaSum]
  | cons x tl ih =>
    rw [areaSum_cons]
    exact add_nonneg (h x (List.mem_cons_self x tl))
      (ih fun c hc => h c (List.mem_cons_of_mem x hc))

theorem has_region_intersection_eq_false_iff {Poly Pt : Type} (K : GeomKernel Poly Pt)
    (a b : Poly) :
    has_region_intersection K a b = false ↔
      K.relationship a b = RegionContainment.Disjoint := by
  unfold has_region_intersection
  cases h : K.relationship a b <;> simp

/-!
## Claim theorems
-/

/-- C2: the requirement evaluator is a pure total function of the lot and
the building: it returns `max(lot.area * 0.1, 90.0)` when all three
eligibility conditions hold (zoning category, building-use category,
total floor area at least 5000), and `0` whenever any one of the three
conditions fails. -/
theorem openspaceRequirement_eval_spec {Poly Pt : Type} (K : GeomKernel Poly Pt)
    (lot : Lot Poly) (building : Building Poly) :
    (lot.district_use ∈ eligible_district_uses ∧
        building.use ∈ eligible_building_uses ∧
        (5000 : ℚ) ≤ Building.total_area K building →
      openspaceRequirementArea K lot building =
        max (Lot.area K lot * AREA_RATIO) MIN_AREA)
    ∧ (lot.district_use ∉ eligible_district_uses ∨
        building.use ∉ eligible_building_uses ∨
        Building.total_area K building < 5000 →
      openspaceRequirementArea K lot building = 0) := by
  unfold openspaceRequirementArea
  constructor
  · rintro ⟨h1, h2, h3⟩
    rw [if_neg (not_not_intro h1), if_neg (not_not_intro h2),
      if_neg (not_lt.mpr h3)]
  · rintro (h | h | h)
    · rw [if_pos h]
    · by_cases g1 : lot.district_use ∉ eligible_district_uses
      · rw [if_pos g1]
      · rw [if_neg g1, if_pos h]
    · by_cases g1 : lot.district_use ∉ eligible_district_uses
      · rw [if_pos g1]
      · by_cases g2 : building.use ∉ eligible_building_uses
        · rw [if_neg g1, if_pos g2]
        · rw [if_neg g1, if_neg g2, if_pos h]

/-- C9: the computed requirement area is either exactly `0` or at least
`MIN_AREA = 90`, and it is never negative. -/
theorem openspaceRequirement_zero_or_min {Poly Pt : Type} (K : GeomKernel Poly Pt)
    (lot : Lot Poly) (building : Building Poly) :
    (openspaceRequirementArea K lot building = 0 ∨
      MIN_AREA ≤ openspaceRequirementArea K lot building)
    ∧ 0 ≤ openspaceRequirementArea K lot building := by
  unfold openspaceRequirementArea
  by_cases g1 : lot.district_use ∉ eligible_district_uses
  · rw [if_pos g1]
    exact ⟨Or.inl rfl, le_refl 0⟩
  · rw [if_neg g1]
    by_cases g2 : building.use ∉ eligible_building_uses
    · rw [if_pos g2]
      exact ⟨Or.inl rfl, le_refl 0⟩
    · rw [if_neg g2]
      by_cases g3 : Building.total_area K building < 5000
      · rw [if_pos g3]
        exact ⟨Or.inl rfl, le_refl 0⟩
      · rw [if_neg g3]
        refine ⟨Or.inr (le_max_right _ _), ?_⟩
        have h : (0 : ℚ) ≤ MIN_AREA := by norm_num [MIN_AREA]
        exact h.trans (le_max_right _ _)

/-- C4: a polygon is in the candidate filter's output exactly when it is
an input candidate with area at least `MIN_AREA = 90` and there is some
road whose overlap length with the candidate exceeds
`ROAD_ADJUST_RATIO = 0.25` times its overlap length with the lot region;
hence every output polygon satisfies both predicates and any candidate
failing either is absent. -/
theorem filter_candidate_mem_iff {Poly Pt : Type} (K : GeomKernel Poly Pt)
    (lot : Lot Poly) (roads : List (Road Poly)) (candidates : List Poly)
    (p : Poly) :
    p ∈ filter_candidate_regions K lot roads candidates ↔
      p ∈ candidates ∧ MIN_AREA ≤ K.area p ∧
        ∃ road ∈ roads,
          get_overlap_length K lot.region road.curve * ROAD_ADJUST_RATIO <
            get_overlap_length K p road.curve := by
  unfold filter_candidate_regions is_road_adjacent
  simp only [List.mem_filter, List.any_eq_true, decide_eq_true_eq]
  tauto

/-- C6: in the generator's step 3, an inward region survives to the
outward-offset step exactly when the kernel classifies it as `Disjoint`
from every building region; equivalently it is discarded exactly when its
relationship with some building region is not `Disjoint`. -/
theorem filter_inward_mem_iff {Poly Pt : Type} (K : GeomKernel Poly Pt)
    (building : Building Poly) (inward_regions : List Poly) (region : Poly) :
    region ∈ filter_inward_regions K building inward_regions ↔
      region ∈ inward_regions ∧
        ∀ other ∈ building.regions,
          K.relationship region other = RegionContainment.Disjoint := by
  unfold filter_inward_regions
  simp only [List.mem_filter, Bool.not_eq_true', List.any_eq_false,
    Bool.not_eq_true, has_region_intersection_eq_false_iff]

/-- C10 (amended): the fitter's shrink helper hits the unguarded
`get_overlap_crv(...)[0]` error branch exactly when the region's area
strictly exceeds the target and the overlap of the region with the lot
boundary is empty; in particular it is safe whenever that overlap list is
non-empty. -/
theorem reduce_region_none_iff {Poly Pt : Type} (K : GeomKernel Poly Pt)
    (lot : Lot Poly) (region : Poly) (target_area : ℚ) :
    reduce_region K lot region target_area = none ↔
      target_area < K.area region ∧
        get_overlap_crv K region lot.region = [] := by
  unfold reduce_region
  split_ifs with h
  · constructor
    · intro hc
      cases hc
    · rintro ⟨h1, _⟩
      exact absurd h1 (not_lt.mpr h)
  · cases hov : get_overlap_crv K region lot.region with
    | nil => simpa [hov] using not_le.mp h
    | cons seg tl => simp [hov]

/-- C8: with an empty roads list every candidate fails the road-adjacency
predicate, the candidate filter returns the empty list, and whenever the
whole pipeline returns at all it returns the empty list. -/
theorem empty_roads_spec {Poly Pt : Type} (K : GeomKernel Poly Pt)
    (lot : Lot Poly) (building : Building Poly) (parking_region : Poly)
    (req_area : ℚ) :
    (∀ candidate : Poly, is_road_adjacent K lot [] candidate = false)
    ∧ (∀ candidates : List Poly, filter_candidate_regions K lot [] candidates = [])
    ∧ ∀ out, get_openspace K lot [] building parking_region req_area = some out →
        out = [] := by
  have h1 : ∀ candidate : Poly, is_road_adjacent K lot [] candidate = false :=
    fun _ => rfl
  have h2 : ∀ candidates : List Poly,
      filter_candidate_regions K lot [] candidates = [] := by
    intro cs
    unfold filter_candidate_regions
    have hinner : (cs.filter fun x => is_road_adjacent K lot [] x) = [] :=
      List.filter_eq_nil_iff.mpr (fun a _ => by simp [h1 a])
    rw [hinner]
    rfl
  refine ⟨h1, h2, ?_⟩
  intro out h
  unfold get_openspace at h
  cases hgen : get_candidate_regions K lot building parking_region with
  | none => rw [hgen] at h; cases h
  | some cs =>
    rw [hgen] at h
    simp only [Option.bind_some, Option.some_bind] at h
    rw [h2 cs] at h
    have hsort : sort_candidate_regions K ([] : List Poly) = [] := rfl
    rw [hsort] at h
    have : adjust_candidate_regions K lot req_area ([] : List Poly) = some [] := rfl
    rw [this] at h
    exact (Option.some.inj h).symm

/-- C7 (amended): when the offset distance is nonzero, a successful
outward-offset step maps each surviving region to exactly one output
polygon, the first contour of its individual offset result; and the step
fails (the `IndexError` aborts the whole list comprehension, no
per-candidate dropping) exactly when some region's offset yields no
contour. -/
theorem offset_regions_outward_spec {Poly Pt : Type} (K : GeomKernel Poly Pt)
    (dist : ℚ) (hd : dist ≠ 0) :
    ∀ (regions out : List Poly),
      (offset_regions_outward K dist regions = some out →
        List.Forall₂
          (fun r p => (K.polylineOffsetContour [r] dist).head? = some p)
          regions out)
      ∧ (offset_regions_outward K dist regions = none ↔
          ∃ r ∈ regions, (K.polylineOffsetContour [r] dist).head? = none) := by
  have hsingle : ∀ r : Poly,
      offset_region_outward K r dist = (K.polylineOffsetContour [r] dist).head? := by
    intro r
    unfold offset_region_outward
    rw [if_neg hd]
  intro regions
  induction regions with
  | nil =>
    intro out
    constructor
    · intro h
      unfold offset_regions_outward at h
      rw [← Option.some.inj h]
      exact List.Forall₂.nil
    · simp [offset_regions_outward]
  | cons r rest ih =>
    intro out
    constructor
    · intro h
      unfold offset_regions_outward at h
      cases ho : offset_region_outward K r dist with
      | none => rw [ho] at h; cases h
      | some p =>
        cases hrest : offset_regions_outward K dist rest with
        | none => rw [ho, hrest] at h; cases h
        | some ps =>
          rw [ho, hrest] at h
          rw [← Option.some.inj h]
          exact List.Forall₂.cons (hsingle r ▸ ho) ((ih ps).1 hrest)
    · unfold offset_regions_outward
      cases ho : offset_region_outward K r dist with
      | none =>
        simp only [List.mem_cons]
        constructor
        · intro _
          exact ⟨r, Or.inl rfl, hsingle r ▸ ho⟩
        · intro _
          trivial
      | some p =>
        cases hrest : offset_regions_outward K dist rest with
        | none =>
          simp only [List.mem_cons]
          constructor
          · intro _
            obtain ⟨x, hx, hnone⟩ := ((ih []).2).mp hrest
            exact ⟨x, Or.inr hx, hnone⟩
          · intro _
            trivial
        | some ps =>
          simp only [List.mem_cons]
          constructor
          · intro h
            cases h
          · rintro ⟨x, hx | hx, hnone⟩
            · rw [← hsingle x, hx] at hnone
              rw [ho] at hnone
              cases hnone
            · have : offset_regions_outward K dist rest = none :=
                ((ih []).2).mpr ⟨x, hx, hnone⟩
              rw [hrest] at this
              cases this

theorem orderedInsert_filter_of_rel {α : Type} (r : α → α → Prop) [DecidableRel r]
    (p : α → Bool) (x : α) (l : List α)
    (hp : ∀ a b, p a = true → p b = true → r a b) :
    (l.orderedInsert r x).filter p =
      if p x then x :: l.filter p else l.filter p := by
  induction l with
  | nil =>
    cases hpx : p x <;> simp [List.orderedInsert, List.filter, hpx]
  | cons b tl ih =>
    by_cases hrb : r x b
    · rw [List.orderedInsert, if_pos hrb]
      cases hpx : p x <;> simp [List.filter, hpx]
    · rw [List.orderedInsert, if_neg hrb]
      cases hpb : p b with
      | true =>
        have hpx : p x = false := by
          cases hx : p x with
          | true => exact absurd (hp x b hx hpb) hrb
          | false => rfl
        simp [List.filter, hpb, hpx, ih, hpx]
      | false =>
        cases hpx : p x <;> simp [List.filter, hpb, hpx, ih, hpx]

theorem insertionSort_filter {α : Type} (r : α → α → Prop) [DecidableRel r]
    (p : α → Bool)
    (hp : ∀ a b, p a = true → p b = true → r a b) :
    ∀ l : List α, (l.insertionSort r).filter p = l.filter p := by
  intro l
  induction l with
  | nil => rfl
  | cons x tl ih =>
    rw [List.insertionSort, orderedInsert_filter_of_rel r p x _ hp, ih]
    cases hpx : p x <;> simp [List.filter, hpx]

/-- C5: the ranker's output is the input list sorted by area in descending
order: it is pairwise nonincreasing in area, a permutation of the input,
and stable in the sense that for every area value the sublist of elements
with that area is unchanged (equal-area candidates keep their original
relative order). -/
theorem sort_candidate_regions_spec {Poly Pt : Type} (K : GeomKernel Poly Pt)
    (candidates : List Poly) :
    List.Sorted (fun a b => K.area b ≤ K.area a)
      (sort_candidate_regions K candidates)
    ∧ (sort_candidate_regions K candidates).Perm candidates
    ∧ ∀ q : ℚ,
        (sort_candidate_regions K candidates).filter
            (fun x => decide (K.area x = q)) =
          candidates.filter (fun x => decide (K.area x = q)) := by
  refine ⟨?_, ?_, ?_⟩
  · haveI : IsTotal Poly (fun a b => K.area b ≤ K.area a) :=
      ⟨fun a b => le_total (K.area b) (K.area a)⟩
    haveI : IsTrans Poly (fun a b => K.area b ≤ K.area a) :=
      ⟨fun _ _ _ h1 h2 => le_trans h2 h1⟩
    exact List.sorted_insertionSort _ candidates
  · exact List.perm_insertionSort _ candidates
  · intro q
    refine insertionSort_filter _ _ ?_ candidates
    intro a b ha hb
    have ha' : K.area a = q := of_decide_eq_true ha
    have hb' : K.area b = q := of_decide_eq_true hb
    rw [ha', hb']

theorem reduce_region_some_area {Poly Pt : Type} (K : GeomKernel Poly Pt)
    (lot : Lot Poly) (region : Poly) (t : ℚ) (reduced : Poly)
    (hscale : ∀ p c q, 0 ≤ q → K.area (K.scaleSqrt p c q) = K.area p * q)
    (ht : 0 ≤ t) (hlt : t < K.area region)
    (h : reduce_region K lot region t = some reduced) :
    K.area reduced = t := by
  unfold reduce_region at h
  rw [if_neg (not_le.mpr hlt)] at h
  cases hov : get_overlap_crv K region lot.region with
  | nil =>
    rw [hov] at h
    cases h
  | cons seg tl =>
    rw [hov] at h
    have hpos : 0 < K.area region := lt_of_le_of_lt ht hlt
    rw [← Option.some.inj h,
      hscale region (K.pointAt seg (1/2)) (t / K.area region)
        (div_nonneg ht hpos.le), mul_comm, div_mul_cancel₀ t hpos.ne']

theorem adjust_loop_spec {Poly Pt : Type} (K : GeomKernel Poly Pt)
    (lot : Lot Poly) (req : ℚ)
    (hscale : ∀ p c q, 0 ≤ q → K.area (K.scaleSqrt p c q) = K.area p * q) :
    ∀ (cs acc : List Poly) (total : ℚ) (out : List Poly),
      (∀ c ∈ cs, 0 ≤ K.area c) →
      total ≤ req →
      adjust_loop K lot req cs acc total = some out →
      ∃ tail, out = acc ++ tail
        ∧ total + areaSum K tail ≤ req
        ∧ (total + areaSum K tail = req ↔ req ≤ total + areaSum K cs)
        ∧ tail.dropLast.Sublist cs := by
  intro cs
  induction cs with
  | nil =>
    intro acc total out _ htot hrun
    unfold adjust_loop at hrun
    have hz : areaSum K ([] : List Poly) = 0 := rfl
    refine ⟨[], (Option.some.inj hrun).symm ▸ by simp, ?_, ?_, by simp⟩
    · linarith [hz]
    · constructor
      · intro h
        linarith [hz]
      · intro h
        linarith [hz]
  | cons c rest ih =>
    intro acc total out hnn htot hrun
    have hnc : 0 ≤ K.area c := hnn c (List.mem_cons_self c rest)
    have hnr : ∀ x ∈ rest, 0 ≤ K.area x :=
      fun x hx => hnn x (List.mem_cons_of_mem c hx)
    have hrestnn : 0 ≤ areaSum K rest := areaSum_nonneg K rest hnr
    unfold adjust_loop at hrun
    by_cases hb : req < total + K.area c
    · rw [if_pos hb] at hrun
      split at hrun
      · cases hrun
      · rename_i reduced hred
        have htar : K.area reduced = req - total :=
          reduce_region_some_area K lot c (req - total) reduced hscale
            (by linarith) (by linarith) hred
        rw [htar] at hrun
        rw [if_pos (by linarith)] at hrun
        refine ⟨[reduced], (Option.some.inj hrun).symm, ?_, ?_, by simp⟩
        · rw [areaSum_cons, areaSum_nil, htar]
          linarith
        · rw [areaSum_cons, areaSum_nil, htar, areaSum_cons]
          constructor
          · intro _
            linarith
          · intro _
            ring
    · rw [if_neg hb] at hrun
      push_neg at hb
      by_cases hbr : req ≤ total + K.area c
      · rw [if_pos hbr] at hrun
        refine ⟨[c], (Option.some.inj hrun).symm, ?_, ?_, by simp⟩
        · rw [areaSum_cons, areaSum_nil]
          linarith
        · rw [areaSum_cons, areaSum_nil, areaSum_cons]
          constructor
          · intro _
            linarith
          · intro _
            linarith
      · rw [if_neg hbr] at hrun
        obtain ⟨tail, hout, hle, hiff, hsub⟩ :=
          ih (acc ++ [c]) (total + K.area c) out hnr hb hrun
        refine ⟨c :: tail, ?_, ?_, ?_, ?_⟩
        · rw [hout, List.append_assoc]
          rfl
        · rw [areaSum_cons]
          linarith
        · rw [areaSum_cons, areaSum_cons]
          constructor
          · intro h
            have := hiff.mp (by linarith)
            linarith
          · intro h
            have := hiff.mpr (by linarith)
            linarith
        · cases tail with
          | nil => simp
          | cons t ts =>
            have hdl : (c :: t :: ts).dropLast = c :: (t :: ts).dropLast := rfl
            rw [hdl]
            exact List.Sublist.cons₂ c hsub

/-- C1: whenever the fitter returns, its accepted list has total area at
most the requirement `req`; the total equals `req` exactly when the ranked
candidates' total area is at least `req`; all accepted regions except
possibly the last are unmodified input candidates (in input order); and
when the total equals `req` the last accepted region's area is exactly
`req` minus the sum of the previously accepted areas.  Stated over exact
rational arithmetic, where the source's `0.1` square-metre float tolerance
is not needed. -/
theorem adjust_fit_spec {Poly Pt : Type} (K : GeomKernel Poly Pt)
    (lot : Lot Poly) (req : ℚ) (ranked accepted : List Poly)
    (hrun : adjust_candidate_regions K lot req ranked = some accepted)
    (hreq : 0 ≤ req)
    (hscale : ∀ p c q, 0 ≤ q → K.area (K.scaleSqrt p c q) = K.area p * q)
    (hnn : ∀ c ∈ ranked, 0 ≤ K.area c) :
    areaSum K accepted ≤ req
    ∧ (areaSum K accepted = req ↔ req ≤ areaSum K ranked)
    ∧ accepted.dropLast.Sublist ranked
    ∧ (areaSum K accepted = req →
        ∀ last, accepted.getLast? = some last →
          K.area last = req - areaSum K accepted.dropLast) := by
  obtain ⟨tail, hout, hle, hiff, hsub⟩ :=
    adjust_loop_spec K lot req hscale ranked [] 0 accepted hnn hreq hrun
  rw [List.nil_append] at hout
  rw [← hout] at hle hiff hsub
  refine ⟨by linarith, ?_, hsub, ?_⟩
  · constructor
    · intro h
      have := hiff.mp (by linarith)
      linarith
    · intro h
      have := hiff.mpr (by linarith)
      linarith
  · intro heq last hlast
    have hne : accepted ≠ [] := by
      rintro rfl
      cases hlast
    have hdl : accepted.dropLast ++ [accepted.getLast hne] = accepted :=
      List.dropLast_concat_getLast hne
    have hlast' : accepted.getLast hne = last := by
      rw [List.getLast?_eq_getLast accepted hne] at hlast
      exact Option.some.inj hlast
    rw [hlast'] at hdl
    have hsum : areaSum K accepted = areaSum K accepted.dropLast + K.area last := by
      conv_lhs => rw [← hdl]
      rw [areaSum_append, areaSum_cons, areaSum_nil]
      ring
    rw [hsum] at heq
    linarith

/-- C3 (amended): when the requirement area is `0`, any successful pipeline
run returns an accepted set of total area `0` (zero shortfall), and the
accepted list has at most one element: it is empty when no filtered
candidates exist, but when filtered candidates exist the first one is
degenerately scaled to area `0` and appended, so the output is one
zero-area region rather than the empty list. -/
theorem get_openspace_req_zero {Poly Pt : Type} (K : GeomKernel Poly Pt)
    (lot : Lot Poly) (roads : List (Road Poly)) (building : Building Poly)
    (parking_region : Poly) (out : List Poly)
    (hscale : ∀ p c q, 0 ≤ q → K.area (K.scaleSqrt p c q) = K.area p * q)
    (h : get_openspace K lot roads building parking_region 0 = some out) :
    areaSum K out = 0 ∧ out.length ≤ 1 := by
  unfold get_openspace at h
  cases hgen : get_candidate_regions K lot building parking_region with
  | none =>
    rw [hgen] at h
    cases h
  | some cs =>
    rw [hgen] at h
    simp only [Option.some_bind] at h
    have hmem : ∀ x ∈ sort_candidate_regions K
        (filter_candidate_regions K lot roads cs), MIN_AREA ≤ K.area x := by
      intro x hx
      have hx' : x ∈ filter_candidate_regions K lot roads cs :=
        (List.perm_insertionSort _ _).subset hx
      have := (List.mem_filter.mp hx').2
      simpa using this
    cases hl : sort_candidate_regions K (filter_candidate_regions K lot roads cs) with
    | nil =>
      rw [hl] at h
      unfold adjust_candidate_regions at h
      unfold adjust_loop at h
      rw [← Option.some.inj h]
      exact ⟨rfl, by simp⟩
    | cons c rest =>
      have hc : MIN_AREA ≤ K.area c := hmem c (hl ▸ List.mem_cons_self c rest)
      have hcpos : (0 : ℚ) < K.area c :=
        lt_of_lt_of_le (by norm_num [MIN_AREA]) hc
      rw [hl] at h
      unfold adjust_candidate_regions at h
      unfold adjust_loop at h
      rw [if_pos (by linarith : (0 : ℚ) < 0 + K.area c)] at h
      split at h
      · cases h
      · rename_i reduced hred
        have htar : K.area reduced = 0 - 0 :=
          reduce_region_some_area K lot c (0 - 0) reduced hscale
            (by norm_num) (by linarith) hred
        rw [htar] at h
        rw [if_pos (by norm_num)] at h
        rw [← Option.some.inj h]
        constructor
        · rw [List.nil_append, areaSum_cons, areaSum_nil, htar]
          ring
        · rw [List.nil_append]
          simp

/-!
## Witnesses and counterexamples on the concrete kernel
-/

/-- The candidate `cand` after being degenerately scaled to area `0`. -/
def cand0 : CPoly := ⟨6, 0⟩

/-- The candidate `cand` after being scaled down to area `95`. -/
def cand95 : CPoly := ⟨6, 95⟩

section ConcreteResults

attribute [local semireducible] Rat.mul Rat.add Rat.sub Rat.inv

/-- Witness for C1: a concrete fitter run over the concrete kernel with
requirement `95` and one ranked candidate of area `100`; the accepted list
is the single scaled region of area `95`. -/
theorem adjust_fit_spec_witness :
    areaSum cK [cand95] ≤ 95
    ∧ (areaSum cK [cand95] = 95 ↔ 95 ≤ areaSum cK [cand])
    ∧ ([cand95].dropLast).Sublist [cand]
    ∧ (areaSum cK [cand95] = 95 →
        ∀ last, [cand95].getLast? = some last →
          cK.area last = 95 - areaSum cK ([cand95].dropLast)) :=
  adjust_fit_spec cK cLot 95 [cand] [cand95] (by decide) (by decide)
    (fun p c q h => rfl) (by decide)

/-- Witness for C2: with the eligible building the requirement is the
`max` formula, and with the small building (total area 4000) it is 0. -/
theorem openspaceRequirement_eval_spec_witness :
    openspaceRequirementArea cK cLot cBuildingBig =
      max (Lot.area cK cLot * AREA_RATIO) MIN_AREA
    ∧ openspaceRequirementArea cK cLot cBuildingSmall = 0 :=
  ⟨(openspaceRequirement_eval_spec cK cLot cBuildingBig).1
      ⟨by decide, by decide, by decide⟩,
    (openspaceRequirement_eval_spec cK cLot cBuildingSmall).2
      (Or.inr (Or.inr (by decide)))⟩

/-- Counterexample for C3: on the concrete kernel the building has total
area 4000, so the computed requirement is 0; yet the full pipeline returns
one (zero-area) region, not an empty accepted set. -/
theorem req_zero_pipeline_counterexample :
    Building.total_area cK cBuildingSmall = 4000
    ∧ openspaceRequirementArea cK cLot cBuildingSmall = 0
    ∧ get_openspace cK cLot [cRoad] cBuildingSmall parkR
        (openspaceRequirementArea cK cLot cBuildingSmall) = some [cand0]
    ∧ [cand0].length = 1 := by
  refine ⟨by decide, by decide, by decide, rfl⟩

/-- Witness for C3 (amended): the conclusion at the concrete pipeline run
with requirement 0. -/
theorem get_openspace_req_zero_witness :
    areaSum cK [cand0] = 0 ∧ [cand0].length ≤ 1 :=
  get_openspace_req_zero cK cLot [cRoad] cBuildingSmall parkR [cand0]
    (fun p c q h => rfl) (by decide)

/-- Witness for C4: the filter membership characterization at a concrete
candidate. -/
theorem filter_candidate_mem_iff_witness :
    cand ∈ filter_candidate_regions cK cLot [cRoad] [cand] ↔
      cand ∈ [cand] ∧ MIN_AREA ≤ cK.area cand ∧
        ∃ road ∈ [cRoad],
          get_overlap_length cK cLot.region road.curve * ROAD_ADJUST_RATIO <
            get_overlap_length cK cand road.curve :=
  filter_candidate_mem_iff cK cLot [cRoad] [cand] cand

/-- Witness for C5: the sort specification at a concrete candidate list. -/
theorem sort_candidate_regions_spec_witness :
    List.Sorted (fun a b => cK.area b ≤ cK.area a)
      (sort_candidate_regions cK [cand, orphan])
    ∧ (sort_candidate_regions cK [cand, orphan]).Perm [cand, orphan]
    ∧ ∀ q : ℚ,
        (sort_candidate_regions cK [cand, orphan]).filter
            (fun x => decide (cK.area x = q)) =
          [cand, orphan].filter (fun x => decide (cK.area x = q)) :=
  sort_candidate_regions_spec cK [cand, orphan]

/-- Witness for C6: the inward-region filter characterization at a
concrete region. -/
theorem filter_inward_mem_iff_witness :
    hole1 ∈ filter_inward_regions cK cBuildingSmall [hole1] ↔
      hole1 ∈ [hole1] ∧
        ∀ other ∈ cBuildingSmall.regions,
          cK.relationship hole1 other = RegionContainment.Disjoint :=
  filter_inward_mem_iff cK cBuildingSmall [hole1] hole1

/-- Counterexample for C7: `badRegion` yields no outward-offset contour
while `hole1` yields one, yet the outward-offset step returns the aborting
`none` (the Python `IndexError` propagates) instead of dropping the failed
candidate and keeping the successful one. -/
theorem offset_outward_abort_counterexample :
    offset_region_outward cK badRegion (MIN_DEPTH / 2) = none
    ∧ offset_region_outward cK hole1 (MIN_DEPTH / 2) = some cand
    ∧ offset_regions_outward cK (MIN_DEPTH / 2) [badRegion, hole1] = none := by
  refine ⟨by decide, by decide, by decide⟩

/-- Witness for C7 (amended): the outward-offset characterization at the
concrete failing list. -/
theorem offset_regions_outward_spec_witness :
    (offset_regions_outward cK (MIN_DEPTH / 2) [badRegion, hole1] = some [] →
      List.Forall₂
        (fun r p => (cK.polylineOffsetContour [r] (MIN_DEPTH / 2)).head? = some p)
        [badRegion, hole1] [])
    ∧ (offset_regions_outward cK (MIN_DEPTH / 2) [badRegion, hole1] = none ↔
        ∃ r ∈ [badRegion, hole1],
          (cK.polylineOffsetContour [r] (MIN_DEPTH / 2)).head? = none) :=
  offset_regions_outward_spec cK (MIN_DEPTH / 2) (by decide) [badRegion, hole1] []

/-- Witness for C8: the empty-roads specification at the concrete site. -/
theorem empty_roads_spec_witness :
    (∀ candidate : CPoly, is_road_adjacent cK cLot [] candidate = false)
    ∧ (∀ candidates : List CPoly, filter_candidate_regions cK cLot [] candidates = [])
    ∧ ∀ out, get_openspace cK cLot [] cBuildingSmall parkR 0 = some out → out = [] :=
  empty_roads_spec cK cLot cBuildingSmall parkR 0

/-- Witness for C9: the zero-or-at-least-90 invariant at the concrete
site. -/
theorem openspaceRequirement_zero_or_min_witness :
    (openspaceRequirementArea cK cLot cBuildingBig = 0 ∨
      MIN_AREA ≤ openspaceRequirementArea cK cLot cBuildingBig)
    ∧ 0 ≤ openspaceRequirementArea cK cLot cBuildingBig :=
  openspaceRequirement_zero_or_min cK cLot cBuildingBig

/-- Counterexample for C10: `orphan` passes the candidate filter (it is
road-adjacent with area 100 ≥ 90) and reaches the fitter's shrink branch
for requirement 95, but its overlap list with the lot boundary is empty,
so the fitter hits the unguarded `[0]` access and aborts. -/
theorem reduce_overlap_missing_counterexample :
    filter_candidate_regions cK cLot [cRoad] [orphan] = [orphan]
    ∧ sort_candidate_regions cK [orphan] = [orphan]
    ∧ (95 : ℚ) < cK.area orphan
    ∧ get_overlap_crv cK orphan cLot.region = []
    ∧ adjust_candidate_regions cK cLot 95 [orphan] = none := by
  refine ⟨by decide, by decide, by decide, by decide, by decide⟩

/-- Witness for C10 (amended): the error-branch characterization at the
concrete orphan candidate. -/
theorem reduce_region_none_iff_witness :
    reduce_region cK cLot orphan 95 = none ↔
      (95 : ℚ) < cK.area orphan ∧ get_overlap_crv cK orphan cLot.region = [] :=
  reduce_region_none_iff cK cLot orphan 95

end ConcreteResults
